import Mathlib

/-!
Verification of the TypeDoc-style `Converter` orchestrator (`src/td/converter/Converter.ts`).

The converter drives an external compiler front-end through a two-phase
pipeline (convert every source file, then resolve every created reflection)
and implements the front-end's compiler-host callbacks
(`getSourceFile`, `getDefaultLib`, `getDefaultLibFilename`,
`getCurrentDirectory`, `getCanonicalFileName`, `writeFile`).

The embedding below translates the orchestrator's code into pure Lean
functions.  External collaborators (the `ts.*` front-end functions and
`ts.sys`) are passed in as explicit parameters; the converter's mutable
instance state (`currentDirectory`) and the observable effects (event
dispatches, callback invocations) are threaded explicitly.
-/

set_option autoImplicit false

namespace TD

/-! ## Diagnostics and source files (external front-end data) -/

/-- A diagnostic reported by the external front-end (`ts.Diagnostic`):
only its identity matters to the converter, which never inspects one. -/
structure Diagnostic where
  code : Nat
  messageText : String
deriving DecidableEq

/-- The result of `ts.createSourceFile`: a file name paired with the source
text the converter supplied. -/
structure SourceFile where
  fileName : String
  text : String
deriving DecidableEq

/-- Outcome of a call to `ts.sys.readFile`: it may return the file's text,
return `undefined` when the file does not exist, or throw an error value
carrying an optional error `number` and a `message`. -/
inductive ReadOutcome where
  | success (text : Option String)
  | failure (number : Option Int) (message : String)
deriving DecidableEq

/-- Return code of `ts.sys.readFile` when the file encoding is unsupported
(`Converter.ERROR_UNSUPPORTED_FILE_ENCODING`). -/
def ERROR_UNSUPPORTED_FILE_ENCODING : Int := -2147024809

/-- `Converter.getSourceFile`, with the `ts.sys.readFile` call replaced by its
outcome `read` and the optional `onError` callback replaced by the flag
`hasOnError`.  Returns the produced source file (if any) together with the
message passed to `onError` (if it was invoked).  The `try`/`catch` in the
source maps to the `failure` branch: the caught error yields a warning
message — `Unsupported file encoding` exactly when `e.number` equals the
unsupported-encoding code — and the text falls back to the empty string, so
a source file is still produced. -/
def getSourceFile (read : ReadOutcome) (filename : String) (hasOnError : Bool) :
    Option SourceFile × Option String :=
  match read with
  | ReadOutcome.success (some t) => (some { fileName := filename, text := t }, none)
  | ReadOutcome.success none => (none, none)
  | ReadOutcome.failure n m =>
      (some { fileName := filename, text := "" },
       if hasOnError then
         some (if n = some ERROR_UNSUPPORTED_FILE_ENCODING then
                 "Unsupported file encoding"
               else m)
       else none)

/-! ## Converter instance state and `getCurrentDirectory` -/

/-- The mutable state of one `Converter` instance that the compiler-host
callbacks touch: the `currentDirectory` result cache (`undefined` before the
first computation), plus a count of how many times `ts.sys.getCurrentDirectory`
has been consulted, making recomputation observable. -/
structure ConverterState where
  currentDirectory : Option String
  sysCalls : Nat
deriving DecidableEq

/-- A freshly constructed `Converter`: no cached working directory. -/
def initialConverterState : ConverterState :=
  { currentDirectory := none, sysCalls := 0 }

/-- `Converter.getCurrentDirectory`.  The source reads
`this.currentDirectory || (this.currentDirectory = ts.sys.getCurrentDirectory())`:
the cached value is returned only when it is truthy, i.e. neither `undefined`
nor the empty string; otherwise `ts.sys.getCurrentDirectory` is consulted
(modelled as a function of the consultation count, since the process working
directory can change between calls) and the result is cached. -/
def getCurrentDirectory (sysGetCurrentDirectory : Nat → String)
    (st : ConverterState) : String × ConverterState :=
  let cached := st.currentDirectory.getD ""
  if cached ≠ "" then
    (cached, st)
  else
    let v := sysGetCurrentDirectory st.sysCalls
    (v, { currentDirectory := some v, sysCalls := st.sysCalls + 1 })

/-! ## `getCanonicalFileName` -/

/-- JavaScript's `String.prototype.toLowerCase` restricted to the basic latin
range, matching `Char.toLower`: each character is lowered independently. -/
def toLowerCase (s : String) : String :=
  String.mk (s.data.map Char.toLower)

/-- `Converter.getCanonicalFileName`: the name itself on a case-sensitive
platform, its lower-cased form otherwise. -/
def getCanonicalFileName (useCaseSensitiveFileNames : Bool) (fileName : String) :
    String :=
  if useCaseSensitiveFileNames then fileName else toLowerCase fileName

/-! ## Default library resolution -/

/-- The compilation targets of the external front-end (`ts.ScriptTarget`). -/
inductive ScriptTarget where
  | ES3
  | ES5
  | ES6
  | Latest
deriving DecidableEq

/-- `Converter.getDefaultLib`: the basename of the built-in declaration
library keyed off the configured compilation target. -/
def getDefaultLib (target : ScriptTarget) : String :=
  if target = ScriptTarget.ES6 then "lib.es6.d.ts" else "lib.d.ts"

/-- `Path.join` on three segments, inserting the path separator. -/
def joinPath (a b c : String) : String :=
  a ++ "/" ++ b ++ "/" ++ c

/-- The final path component of a path: the characters after the last
separator. -/
def basename (p : String) : String :=
  String.mk ((p.data.reverse.takeWhile (fun c => c != '/')).reverse)

/-- `Converter.getDefaultLibFilename`: joins the directory of the (normalized)
installation root `tsPath` with `bin` and the default-library basename.
`ts.getDirectoryPath` and `ts.normalizePath` belong to the external front-end
and are passed in as parameters. -/
def getDefaultLibFilename (getDirectoryPath normalizePath : String → String)
    (tsPath : String) (target : ScriptTarget) : String :=
  joinPath (getDirectoryPath (normalizePath tsPath)) "bin" (getDefaultLib target)

/-! ## `writeFile` -/

/-- `Converter.writeFile`: the body in the source is empty.  The embedding
returns the (unchanged) converter state, the list of files written (with
their contents) and the message passed to `onError` (if it was invoked), so
that all observable effects of the call are captured. -/
def writeFile (st : ConverterState) (fileName : String) (data : String)
    (writeByteOrderMark : Bool) (hasOnError : Bool) :
    ConverterState × List (String × String) × Option String :=
  (st, [], none)

/-! ## The `convert` pipeline -/

/-- The events the converter dispatches during one `convert` call, in the
granularity visible in `Converter.convert` itself: the four lifecycle events,
one `visitFile` per `visit(context, sourceFile)` call, and one `resolve` per
reflection dispatched in the resolution loop. -/
inductive Event where
  | begin_
  | visitFile (name : String)
  | resolveBegin
  | resolve (id : Nat)
  | resolveEnd
  | end_
deriving DecidableEq

/-- The external front-end together with the observable behaviour of the
converter's extensions, as far as `Converter.convert` can see it.
`normalizeSlashes` and `normalizePath` are the front-end's path functions
(`ts.normalizeSlashes`, `ts.normalizePath`); `sourceFiles` is the list of
source files the created program reports for the given (already normalized)
root file names; `programDiagnostics` and `checkerDiagnostics` are what
`program.getDiagnostics()` and `checker.getDiagnostics()` return.

Modelled from the spec: the visit dispatch and the reflection model are not
part of the shown source, so reflection creation is abstracted by counts.
`visitCount f` is the number of reflections the recursive walk of source
file `f` registers in the project's id-to-reflection index, each under a
fresh numeric identity (the spec's invariant: identity is assigned once at
creation and never reused within a conversion); `resolveCreateCount id` is
the number of reflections the extensions reacting to the `resolve` dispatch
for reflection `id` create, again under fresh identities. -/
structure CompilerFrontend where
  normalizeSlashes : String → String
  normalizePath : String → String
  sourceFiles : List String → List String
  programDiagnostics : List Diagnostic
  checkerDiagnostics : List Diagnostic
  visitCount : String → Nat
  resolveCreateCount : Nat → Nat

/-- The slash- and path-normalization `convert` applies to each incoming file
name before creating the program:
`ts.normalizePath(ts.normalizeSlashes(fileNames[i]))`. -/
def normalizeFileNames (h : CompilerFrontend) (fileNames : List String) :
    List String :=
  fileNames.map (fun f => h.normalizePath (h.normalizeSlashes f))

/-- The conversion phase: `program.getSourceFiles().forEach(visit …)`.
Modelled from the spec: walking one file registers `h.visitCount f` fresh
reflections in the project index.  Returns the ids registered (in creation
order), the next fresh id, and the trace of visit calls. -/
def visitFiles (h : CompilerFrontend) (files : List String) (nextId : Nat) :
    List Nat × Nat × List Event :=
  match files with
  | [] => ([], nextId, [])
  | f :: rest =>
      let created := (List.range (h.visitCount f)).map (fun k => nextId + k)
      let r := visitFiles h rest (nextId + h.visitCount f)
      (created ++ r.1, r.2.1, Event.visitFile f :: r.2.2)

/-- The resolution loop: `for (var id in project.reflections) { … dispatch
EVENT_RESOLVE … }`.  The `for … in` statement enumerates the keys the index
holds when the loop starts; properties added to the object during the
enumeration are not visited (ECMAScript leaves them unspecified and the
engines omit them), so the loop runs over the snapshot taken at `resolveBegin`
time.  Modelled from the spec: extensions reacting to the `resolve` dispatch
for reflection `id` register `h.resolveCreateCount id` new reflections under
fresh identities.  Returns the newly created ids, the next fresh id, and the
trace of `resolve` dispatches. -/
def resolvePhase (h : CompilerFrontend) (snapshot : List Nat) (nextId : Nat) :
    List Nat × Nat × List Event :=
  match snapshot with
  | [] => ([], nextId, [])
  | id :: rest =>
      let created := (List.range (h.resolveCreateCount id)).map (fun k => nextId + k)
      let r := resolvePhase h rest (nextId + h.resolveCreateCount id)
      (created ++ r.1, r.2.1, Event.resolve id :: r.2.2)

/-- The value `Converter.convert` returns: the project (its id-to-reflection
index, by ids) and the collected diagnostics. -/
structure ConvertResult where
  project : List Nat
  errors : List Diagnostic
deriving DecidableEq

/-- Everything observable about one `convert` call: the returned result, the
contents of the caller's `fileNames` array after the call (the source assigns
`fileNames[i] = …` in place), the file names handed to `ts.createProgram`,
the contents of the reflection index at the moment `resolveBegin` was
dispatched, and the full event trace. -/
structure ConvertOutcome where
  result : ConvertResult
  fileNamesAfter : List String
  programInput : List String
  snapshot : List Nat
  trace : List Event
deriving DecidableEq

/-- `Converter.convert`.  Follows the source line by line: normalize the file
names in place, create the program and collect program and checker
diagnostics, create the project reflection (id `0`, registered in the index
before any event fires), dispatch `begin`, visit every source file the
program reports, dispatch `resolveBegin`, dispatch `resolve` for every
reflection in the index, dispatch `resolveEnd` and `end`, and return the
errors together with the project. -/
def convert (h : CompilerFrontend) (fileNames : List String) : ConvertOutcome :=
  let normalized := normalizeFileNames h fileNames
  let files := h.sourceFiles normalized
  let errors := h.programDiagnostics ++ h.checkerDiagnostics
  let v := visitFiles h files 1
  let indexAtResolveBegin := 0 :: v.1
  let r := resolvePhase h indexAtResolveBegin v.2.1
  { result := { project := indexAtResolveBegin ++ r.1, errors := errors }
    fileNamesAfter := normalized
    programInput := normalized
    snapshot := indexAtResolveBegin
    trace := Event.begin_ ::
      (v.2.2 ++ Event.resolveBegin ::
        (r.2.2 ++ [Event.resolveEnd, Event.end_])) }

/-- A concrete front-end used to instantiate the theorems below: one
conversion-time reflection index of three entries, and an extension that
creates one fresh reflection while reflection `1` is being resolved. -/
def sampleFrontend : CompilerFrontend where
  normalizeSlashes := fun s => s
  normalizePath := fun s => s
  sourceFiles := fun fs => fs
  programDiagnostics := [{ code := 1005, messageText := "semicolon expected" }]
  checkerDiagnostics := [{ code := 2304, messageText := "cannot find name" }]
  visitCount := fun _ => 2
  resolveCreateCount := fun id => if id = 1 then 1 else 0

/-! ## Supporting lemmas about the two phases -/

theorem visitFiles_counter_le (h : CompilerFrontend) (files : List String)
    (nextId : Nat) : nextId ≤ (visitFiles h files nextId).2.1 := by
  induction files generalizing nextId with
  | nil => simp [visitFiles]
  | cons f rest ih =>
      simpa [visitFiles] using Nat.le_trans (Nat.le_add_right _ _) (ih _)

theorem visitFiles_mem_bounds (h : CompilerFrontend) (files : List String)
    (nextId : Nat) :
    ∀ id ∈ (visitFiles h files nextId).1,
      nextId ≤ id ∧ id < (visitFiles h files nextId).2.1 := by
  induction files generalizing nextId with
  | nil => simp [visitFiles]
  | cons f rest ih =>
      intro id hid
      simp only [visitFiles, List.mem_append, List.mem_map, List.mem_range] at hid
      rcases hid with ⟨k, hk, rfl⟩ | hid
      · refine ⟨Nat.le_add_right _ _, ?_⟩
        have h1 : nextId + k < nextId + h.visitCount f := by omega
        exact Nat.lt_of_lt_of_le h1 (visitFiles_counter_le h rest _)
      · have := ih (nextId + h.visitCount f) id hid
        simp only [visitFiles]
        omega

theorem visitFiles_nodup (h : CompilerFrontend) (files : List String)
    (nextId : Nat) : ((visitFiles h files nextId).1).Nodup := by
  induction files generalizing nextId with
  | nil => simp [visitFiles]
  | cons f rest ih =>
      simp only [visitFiles]
      refine List.Nodup.append ?_ (ih _) ?_
      · exact (List.nodup_range _).map (fun a b hab => by omega)
      · intro id hid1 hid2
        simp only [List.mem_map, List.mem_range] at hid1
        rcases hid1 with ⟨k, hk, rfl⟩
        have := (visitFiles_mem_bounds h rest (nextId + h.visitCount f) _ hid2).1
        omega

theorem visitFiles_trace (h : CompilerFrontend) (files : List String)
    (nextId : Nat) : (visitFiles h files nextId).2.2 = files.map Event.visitFile := by
  induction files generalizing nextId with
  | nil => simp [visitFiles]
  | cons f rest ih => simp [visitFiles, ih]

theorem resolvePhase_trace (h : CompilerFrontend) (snapshot : List Nat)
    (nextId : Nat) : (resolvePhase h snapshot nextId).2.2 = snapshot.map Event.resolve := by
  induction snapshot generalizing nextId with
  | nil => simp [resolvePhase]
  | cons id rest ih => simp [resolvePhase, ih]

/-- `Event.resolve` is injective, so counting a `resolve` dispatch in a mapped
trace counts the underlying reflection id. -/
theorem count_resolve_map (l : List Nat) (i : Nat) :
    (l.map Event.resolve).count (Event.resolve i) = l.count i :=
  List.count_map_of_injective l Event.resolve (fun a b hab => by cases hab; rfl) i

/-- No `resolve` dispatch occurs among the visit calls of the conversion
phase. -/
theorem count_resolve_visitTrace (files : List String) (i : Nat) :
    (files.map Event.visitFile).count (Event.resolve i) = 0 := by
  rw [List.count_eq_zero]
  intro hmem
  simp only [List.mem_map] at hmem
  rcases hmem with ⟨f, _, hf⟩
  cases hf

/-- Counting a `resolve` dispatch in the whole trace of a `convert` call
reduces to counting the reflection id in the snapshot the resolution loop
ran over. -/
theorem convert_count_resolve (h : CompilerFrontend) (fileNames : List String)
    (i : Nat) :
    ((convert h fileNames).trace).count (Event.resolve i)
      = ((convert h fileNames).snapshot).count i := by
  show (Event.begin_ ::
      ((visitFiles h (h.sourceFiles (normalizeFileNames h fileNames)) 1).2.2 ++
        Event.resolveBegin ::
          ((resolvePhase h _ _).2.2 ++ [Event.resolveEnd, Event.end_]))).count
        (Event.resolve i) = _
  rw [List.count_cons_of_ne (by simp), List.count_append,
    visitFiles_trace, count_resolve_visitTrace, resolvePhase_trace,
    List.count_cons_of_ne (by simp), List.count_append, count_resolve_map]
  simp [convert]

/-- The snapshot the resolution loop runs over holds pairwise distinct
reflection ids: the project root has id `0` and every conversion-time
reflection has a fresh positive id. -/
theorem convert_snapshot_nodup (h : CompilerFrontend) (fileNames : List String) :
    ((convert h fileNames).snapshot).Nodup := by
  show (0 :: (visitFiles h (h.sourceFiles (normalizeFileNames h fileNames)) 1).1).Nodup
  refine List.nodup_cons.mpr ⟨?_, visitFiles_nodup h _ 1⟩
  intro hmem
  have := (visitFiles_mem_bounds h _ 1 0 hmem).1
  omega

/-! ## Claim theorems about `convert` -/

/-- C1: during every `convert` call, each reflection that existed in the
project's reflection index when `resolveBegin` was dispatched receives
exactly one `resolve` dispatch, and the iteration runs over the snapshot
taken at the start of the resolution phase, so reflections created during
the resolution phase itself (present in the final index but not in the
snapshot) receive no `resolve` dispatch in the same pass. -/
theorem convert_resolve_exactly_once_on_snapshot (h : CompilerFrontend)
    (fileNames : List String) :
    (∀ id ∈ (convert h fileNames).snapshot,
        ((convert h fileNames).trace).count (Event.resolve id) = 1)
    ∧ (∀ id ∈ (convert h fileNames).result.project,
        id ∉ (convert h fileNames).snapshot →
          ((convert h fileNames).trace).count (Event.resolve id) = 0) := by
  constructor
  · intro id hid
    rw [convert_count_resolve]
    exact List.count_eq_one_of_mem (convert_snapshot_nodup h fileNames) hid
  · intro id _ hnot
    rw [convert_count_resolve]
    exact List.count_eq_zero_of_not_mem hnot

/-- Witness for C1 on the sample front-end: reflection `1` exists at
`resolveBegin` time and is resolved exactly once; reflection `3` is created
by an extension during the resolution phase, ends up in the project, and is
never resolved. -/
theorem convert_resolve_exactly_once_on_snapshot_witness :
    1 ∈ (convert sampleFrontend ["a.ts"]).snapshot
    ∧ ((convert sampleFrontend ["a.ts"]).trace).count (Event.resolve 1) = 1
    ∧ 3 ∈ (convert sampleFrontend ["a.ts"]).result.project
    ∧ 3 ∉ (convert sampleFrontend ["a.ts"]).snapshot
    ∧ ((convert sampleFrontend ["a.ts"]).trace).count (Event.resolve 3) = 0 :=
  ⟨by decide,
   (convert_resolve_exactly_once_on_snapshot sampleFrontend ["a.ts"]).1 1 (by decide),
   by decide,
   by decide,
   (convert_resolve_exactly_once_on_snapshot sampleFrontend ["a.ts"]).2 3
     (by decide) (by decide)⟩

/-- C2: in every `convert` call the events are dispatched in strict order:
`begin` first, then the source-file visits, then `resolveBegin`, then all
`resolve` dispatches, then `resolveEnd`, then `end` as the final event before
the result is returned. -/
theorem convert_event_order (h : CompilerFrontend) (fileNames : List String) :
    ∃ visits resolves,
      (convert h fileNames).trace
        = Event.begin_ ::
            (visits ++ Event.resolveBegin ::
              (resolves ++ [Event.resolveEnd, Event.end_]))
      ∧ (∀ e ∈ visits, ∃ f, e = Event.visitFile f)
      ∧ (∀ e ∈ resolves, ∃ i, e = Event.resolve i) := by
  refine ⟨(h.sourceFiles (normalizeFileNames h fileNames)).map Event.visitFile,
    ((convert h fileNames).snapshot).map Event.resolve, ?_, ?_, ?_⟩
  · show Event.begin_ ::
        ((visitFiles h (h.sourceFiles (normalizeFileNames h fileNames)) 1).2.2 ++
          Event.resolveBegin ::
            ((resolvePhase h _ _).2.2 ++ [Event.resolveEnd, Event.end_])) = _
    rw [visitFiles_trace, resolvePhase_trace]
    simp [convert]
  · intro e he
    simp only [List.mem_map] at he
    rcases he with ⟨f, _, rfl⟩
    exact ⟨f, rfl⟩
  · intro e he
    simp only [List.mem_map] at he
    rcases he with ⟨i, _, rfl⟩
    exact ⟨i, rfl⟩

/-- Witness for C2 at a concrete conversion. -/
theorem convert_event_order_witness :
    ∃ visits resolves,
      (convert sampleFrontend ["a.ts"]).trace
        = Event.begin_ ::
            (visits ++ Event.resolveBegin ::
              (resolves ++ [Event.resolveEnd, Event.end_]))
      ∧ (∀ e ∈ visits, ∃ f, e = Event.visitFile f)
      ∧ (∀ e ∈ resolves, ∃ i, e = Event.resolve i) :=
  convert_event_order sampleFrontend ["a.ts"]

/-- C3: `convert` raises no exception for front-end diagnostics: the program
and type-checker diagnostics are collected into the `errors` field of the
returned result, next to the project, and every source file of the program
is still visited. -/
theorem convert_returns_diagnostics (h : CompilerFrontend)
    (fileNames : List String) :
    (convert h fileNames).result.errors
        = h.programDiagnostics ++ h.checkerDiagnostics
    ∧ ∀ f ∈ h.sourceFiles (normalizeFileNames h fileNames),
        Event.visitFile f ∈ (convert h fileNames).trace := by
  refine ⟨rfl, ?_⟩
  intro f hf
  show Event.visitFile f ∈ Event.begin_ ::
      ((visitFiles h (h.sourceFiles (normalizeFileNames h fileNames)) 1).2.2 ++
        Event.resolveBegin ::
          ((resolvePhase h _ _).2.2 ++ [Event.resolveEnd, Event.end_]))
  rw [visitFiles_trace]
  exact List.mem_cons_of_mem _ (List.mem_append_left _ (List.mem_map_of_mem _ hf))

/-- Witness for C3: the sample front-end reports a syntax diagnostic and a
checker diagnostic; both come back in the result and the file is visited. -/
theorem convert_returns_diagnostics_witness :
    (convert sampleFrontend ["a.ts"]).result.errors
        = [{ code := 1005, messageText := "semicolon expected" },
           { code := 2304, messageText := "cannot find name" }]
    ∧ Event.visitFile "a.ts" ∈ (convert sampleFrontend ["a.ts"]).trace :=
  ⟨(convert_returns_diagnostics sampleFrontend ["a.ts"]).1,
   (convert_returns_diagnostics sampleFrontend ["a.ts"]).2 "a.ts" (by decide)⟩

/-- C5: every file name is slash- and path-normalized before being handed to
the external front-end to create the program. -/
theorem convert_normalizes_program_input (h : CompilerFrontend)
    (fileNames : List String) :
    (convert h fileNames).programInput
      = fileNames.map (fun f => h.normalizePath (h.normalizeSlashes f)) := rfl

/-- C10: `convert` rewrites the caller's `fileNames` array in place — after
the call, the element at every position is the normalized form of the element
the caller passed at that position. -/
theorem convert_overwrites_fileNames (h : CompilerFrontend)
    (fileNames : List String) (i : Nat) :
    ((convert h fileNames).fileNamesAfter)[i]?
      = (fileNames[i]?).map (fun f => h.normalizePath (h.normalizeSlashes f)) := by
  show (fileNames.map (fun f => h.normalizePath (h.normalizeSlashes f)))[i]? = _
  rw [List.getElem?_map]

/-! ## Claim theorems about the compiler-host callbacks -/

/-- C4: `getSourceFile` never propagates a read exception: when the read
throws, the `onError` callback (when supplied) receives a warning message —
`Unsupported file encoding` exactly when the error carries the
unsupported-encoding error number — and a source file with empty text is
returned; when the read returns no content, no source file is returned. -/
theorem getSourceFile_never_propagates (read : ReadOutcome) (filename : String)
    (hasOnError : Bool) :
    (∀ n m, read = ReadOutcome.failure n m →
        (getSourceFile read filename hasOnError).1
            = some { fileName := filename, text := "" }
        ∧ (getSourceFile read filename hasOnError).2
            = (if hasOnError then
                 some (if n = some ERROR_UNSUPPORTED_FILE_ENCODING then
                         "Unsupported file encoding"
                       else m)
               else none))
    ∧ (read = ReadOutcome.success none →
        getSourceFile read filename hasOnError = (none, none)) := by
  constructor
  · rintro n m rfl
    exact ⟨rfl, rfl⟩
  · rintro rfl
    rfl

/-- Witness for C4: a read failing with the unsupported-encoding error number
yields an empty-text source file and the fixed warning; a read returning no
content yields no source file. -/
theorem getSourceFile_never_propagates_witness :
    (getSourceFile (ReadOutcome.failure (some ERROR_UNSUPPORTED_FILE_ENCODING)
        "boom") "x.ts" true).1 = some { fileName := "x.ts", text := "" }
    ∧ (getSourceFile (ReadOutcome.failure (some ERROR_UNSUPPORTED_FILE_ENCODING)
        "boom") "x.ts" true).2 = some "Unsupported file encoding"
    ∧ getSourceFile (ReadOutcome.success none) "x.ts" true = (none, none) := by
  have h1 := (getSourceFile_never_propagates
      (ReadOutcome.failure (some ERROR_UNSUPPORTED_FILE_ENCODING) "boom")
      "x.ts" true).1 (some ERROR_UNSUPPORTED_FILE_ENCODING) "boom" rfl
  have h2 := (getSourceFile_never_propagates
      (ReadOutcome.success none) "x.ts" true).2 rfl
  refine ⟨h1.1, ?_, h2⟩
  rw [h1.2]
  simp

/-- C6 counterexample: with a system whose reported working directory is the
empty string at the first consultation, two `getCurrentDirectory` calls on a
fresh converter return different values and the system is consulted twice —
the `this.currentDirectory || …` cache tests truthiness, and the empty string
is falsy, so an empty cached value is not returned but recomputed. -/
theorem getCurrentDirectory_empty_defeats_cache :
    ((getCurrentDirectory (fun n => if n = 0 then "" else "/home")
        (getCurrentDirectory (fun n => if n = 0 then "" else "/home")
          initialConverterState).2).1
      ≠ (getCurrentDirectory (fun n => if n = 0 then "" else "/home")
          initialConverterState).1)
    ∧ ((getCurrentDirectory (fun n => if n = 0 then "" else "/home")
        (getCurrentDirectory (fun n => if n = 0 then "" else "/home")
          initialConverterState).2).2).sysCalls = 2 := by
  decide

/-- C6 (amended): on a fresh converter, provided the system reports a
nonempty working directory, the first `getCurrentDirectory` call computes it
from the system, caches it, and every later call returns the cached value
with the state unchanged — in particular without consulting the system
again. -/
theorem getCurrentDirectory_memoized_of_nonempty (sys : Nat → String)
    (st : ConverterState) (h0 : st.currentDirectory = none)
    (hne : sys st.sysCalls ≠ "") :
    (getCurrentDirectory sys st).1 = sys st.sysCalls
    ∧ getCurrentDirectory sys (getCurrentDirectory sys st).2
        = ((getCurrentDirectory sys st).1, (getCurrentDirectory sys st).2) := by
  have hfirst : getCurrentDirectory sys st
      = (sys st.sysCalls,
         { currentDirectory := some (sys st.sysCalls),
           sysCalls := st.sysCalls + 1 }) := by
    simp [getCurrentDirectory, h0]
  refine ⟨by rw [hfirst], ?_⟩
  rw [hfirst]
  simp [getCurrentDirectory, hne]

/-- Witness for the amended C6 with a constant, nonempty system directory. -/
theorem getCurrentDirectory_memoized_of_nonempty_witness :
    (getCurrentDirectory (fun _ => "/work") initialConverterState).1 = "/work"
    ∧ getCurrentDirectory (fun _ => "/work")
        (getCurrentDirectory (fun _ => "/work") initialConverterState).2
        = ((getCurrentDirectory (fun _ => "/work") initialConverterState).1,
           (getCurrentDirectory (fun _ => "/work") initialConverterState).2) :=
  getCurrentDirectory_memoized_of_nonempty (fun _ => "/work")
    initialConverterState rfl (by decide)

/-- A valid code point maps through `Char.ofNat` and back to itself. -/
theorem char_toNat_ofNat {n : Nat} (h : n.isValidChar) :
    (Char.ofNat n).toNat = n := by
  simp [Char.ofNat, h, Char.ofNatAux, Char.toNat]
  rfl

/-- Lowering a character twice equals lowering it once: the lowered range
`97–122` lies outside the upper-case test range `65–90`. -/
theorem charToLower_idem (c : Char) : c.toLower.toLower = c.toLower := by
  simp only [Char.toLower]
  by_cases h : c.toNat ≥ 65 ∧ c.toNat ≤ 90
  · rw [if_pos h]
    have hv : (c.toNat + 32).isValidChar := Or.inl (by omega)
    have ht : (Char.ofNat (c.toNat + 32)).toNat = c.toNat + 32 :=
      char_toNat_ofNat hv
    rw [if_neg]
    rw [ht]
    omega
  · rw [if_neg h, if_neg h]

/-- Lower-casing a string is idempotent. -/
theorem toLowerCase_idem (s : String) :
    toLowerCase (toLowerCase s) = toLowerCase s := by
  simp only [toLowerCase, List.map_map]
  exact congrArg String.mk (List.map_congr_left (fun c _ => charToLower_idem c))

/-- C7: `getCanonicalFileName` is idempotent — applying it to an already
canonical name returns it unchanged, on case-sensitive and case-insensitive
platforms alike. -/
theorem getCanonicalFileName_idempotent (useCaseSensitiveFileNames : Bool)
    (fileName : String) :
    getCanonicalFileName useCaseSensitiveFileNames
        (getCanonicalFileName useCaseSensitiveFileNames fileName)
      = getCanonicalFileName useCaseSensitiveFileNames fileName := by
  cases useCaseSensitiveFileNames with
  | false => simp [getCanonicalFileName, toLowerCase_idem]
  | true => simp [getCanonicalFileName]

/-- `takeWhile` over an append takes exactly the left part when every left
element passes the test and the right part opens with a failing element. -/
theorem takeWhile_all_append {α : Type} (p : α → Bool) (l₁ l₂ : List α)
    (h₁ : ∀ x ∈ l₁, p x = true)
    (h₂ : ∀ x, l₂.head? = some x → p x = false) :
    (l₁ ++ l₂).takeWhile p = l₁ := by
  induction l₁ with
  | nil =>
      cases l₂ with
      | nil => rfl
      | cons x t => simp [List.takeWhile_cons, h₂ x rfl]
  | cons x t ih =>
      simp only [List.cons_append, List.takeWhile_cons, h₁ x (by simp)]
      rw [ih (fun y hy => h₁ y (by simp [hy]))]
      simp

/-- The basename of a three-segment join is its last segment, provided that
segment holds no separator. -/
theorem basename_joinPath (a b lib : String)
    (hlib : ∀ c ∈ lib.data, (c != '/') = true) :
    basename (joinPath a b lib) = lib := by
  obtain ⟨ld⟩ := lib
  simp only [basename, joinPath, String.data_append, List.reverse_append,
    List.append_assoc, List.reverse_cons, List.reverse_nil, List.nil_append,
    List.singleton_append, List.cons_append]
  rw [takeWhile_all_append _ (List.reverse ld) _
    (fun x hx => hlib x (List.mem_reverse.mp hx))
    (fun x hx => by
      simp only [List.head?_cons, Option.some.injEq] at hx
      subst hx
      rfl)]
  rw [List.reverse_reverse]

/-- C8: `getDefaultLib` yields `lib.es6.d.ts` exactly for the ES6 target and
`lib.d.ts` for every other target, and `getDefaultLibFilename` composes a
full path from the installation root whose final path component is exactly
`getDefaultLib`'s value. -/
theorem getDefaultLib_keyed_by_target
    (getDirectoryPath normalizePath : String → String)
    (tsPath : String) (target : ScriptTarget) :
    getDefaultLib target
        = (if target = ScriptTarget.ES6 then "lib.es6.d.ts" else "lib.d.ts")
    ∧ basename (getDefaultLibFilename getDirectoryPath normalizePath
          tsPath target)
        = getDefaultLib target := by
  refine ⟨rfl, ?_⟩
  cases target <;> exact basename_joinPath _ _ _ (by decide)

/-- C9: `writeFile` is a no-op — it leaves the converter state unchanged,
writes no output, and never invokes its `onError` callback. -/
theorem writeFile_noop (st : ConverterState) (fileName data : String)
    (writeByteOrderMark hasOnError : Bool) :
    writeFile st fileName data writeByteOrderMark hasOnError
      = (st, [], none) := rfl

end TD
